import Mathlib

/-!
Verification of the battery digital-twin simulation
(`main_simulation.py`, `rk4_solver.py`, `state_vector.py`,
`system_dynamics.py`) against its natural-language specification.

Real-valued quantities of the Python source are embedded as rationals
(`ℚ`); the periodic sunlight signal and the Gaussian measurement noise
enter the loop body only as inputs, so every per-step computation the
claims are about is an exact rational function of its inputs.
-/

namespace DigitalTwin

/-! ## Simulation settings (module-level constants, `main_simulation.py` lines 19-43) -/

def dt : ℚ := 1
def SOC_target : ℚ := 1
def SOC_min : ℚ := 85 / 100
def Health_min : ℚ := 75 / 100
def C_nominal : ℚ := 50000
def alpha_health : ℚ := 2 / 10 ^ 6

/-- `np.clip(x, lo, hi)`: clamp `x` into the interval `[lo, hi]`. -/
def clip (x lo hi : ℚ) : ℚ := max lo (min x hi)

/-! ## True system update (`main_simulation.py` lines 105-110)

```
dSOC = (sunlight - 5.0 * load_factor) / (C_nominal * Health)
SOC += dSOC * dt
SOC = np.clip(SOC, 0, 1)
dHealth = -alpha_health_fault * abs(SOC - SOC_target)
Health += dHealth * dt
```
The degradation rate `alpha_health_fault` (either `alpha_health` or ten
times it, depending on the step index) is passed in as `rate`. -/

def trueUpdate (soc health load sunlight rate : ℚ) : ℚ × ℚ :=
  let dSOC := (sunlight - 5 * load) / (C_nominal * health)
  let soc' := clip (soc + dSOC * dt) 0 1
  let dHealth := -rate * |soc' - SOC_target|
  (soc', health + dHealth * dt)

/-! ## RUL computation (`main_simulation.py` lines 147-150)

```
dH_est = -alpha_health_fault * abs(X_est[0] - SOC_target)
dH_est = max(abs(dH_est), 1e-8)
RUL = (0.75 - X_est[1]) / dH_est
RUL = max(RUL, 0)
```
`socEst`/`healthEst` are the two components of the filter estimate. -/

def rulStep (socEst healthEst rate : ℚ) : ℚ :=
  let dH_est := -rate * |socEst - SOC_target|
  let rate' := max |dH_est| (1 / 10 ^ 8)
  max ((75 / 100 - healthEst) / rate') 0

/-! ### Basic facts about `clip` -/

lemma clip_le (x : ℚ) : clip x 0 1 ≤ 1 := by
  simp [clip]

lemma clip_nonneg (x : ℚ) : 0 ≤ clip x 0 1 := by
  simp [clip]

/-- C1: the post-update SOC equals `clip(SOC + dSOC * dt, 0, 1)` and
therefore lies in `[0, 1]`, for every input state of a loop step. -/
theorem C1_soc_clamped (soc health load sunlight rate : ℚ) :
    (trueUpdate soc health load sunlight rate).1 =
      clip (soc + (sunlight - 5 * load) / (C_nominal * health) * dt) 0 1 ∧
    0 ≤ (trueUpdate soc health load sunlight rate).1 ∧
    (trueUpdate soc health load sunlight rate).1 ≤ 1 := by
  refine ⟨rfl, clip_nonneg _, clip_le _⟩

/-- C9: the plant's health update subtracts `rate * |SOC' - SOC_target| * dt`
from Health (where `SOC'` is this step's clamped SOC), so with a
non-negative degradation rate the true Health never increases. -/
theorem C9_health_monotone (soc health load sunlight rate : ℚ)
    (hrate : 0 ≤ rate) :
    (trueUpdate soc health load sunlight rate).2 =
      health - rate * |(trueUpdate soc health load sunlight rate).1 - SOC_target| * dt ∧
    (trueUpdate soc health load sunlight rate).2 ≤ health := by
  constructor
  · simp [trueUpdate]; ring
  · simp only [trueUpdate, dt, mul_one]
    have h1 : 0 ≤ rate * |clip (soc + (sunlight - 5 * load) / (C_nominal * health)) 0 1 - SOC_target| :=
      mul_nonneg hrate (abs_nonneg _)
    linarith

/-- Concrete instance of `C9_health_monotone` (Scenario-B-like inputs). -/
theorem C9_health_monotone_witness :
    (trueUpdate (8/10) 1 1 80 alpha_health).2 =
      1 - alpha_health * |(trueUpdate (8/10) 1 1 80 alpha_health).1 - SOC_target| * dt ∧
    (trueUpdate (8/10) 1 1 80 alpha_health).2 ≤ 1 :=
  C9_health_monotone (8/10) 1 1 80 alpha_health (by norm_num [alpha_health])

/-- C6: RUL equals `max(0, (0.75 - Ĥ) / rate)` with
`rate = max(|-degradation_rate * |x̂_SOC - SOC_target||, 1e-8)`, and is
non-negative at every step. -/
theorem C6_rul_formula (socEst healthEst rate : ℚ) :
    rulStep socEst healthEst rate =
      max 0 ((75 / 100 - healthEst) /
        max |(-rate * |socEst - SOC_target|)| (1 / 10 ^ 8)) ∧
    0 ≤ rulStep socEst healthEst rate := by
  constructor
  · simp [rulStep, max_comm]
  · simp [rulStep]

lemma rulStep_eq_zero_of_floor_le (socEst healthEst rate : ℚ)
    (h : 75 / 100 ≤ healthEst) : rulStep socEst healthEst rate = 0 := by
  have hrate : (0 : ℚ) < max |(-rate * |socEst - SOC_target|)| (1 / 10 ^ 8) :=
    lt_of_lt_of_le (by norm_num) (le_max_right _ _)
  have hnum : (75 / 100 : ℚ) - healthEst ≤ 0 := by linarith
  have : (75 / 100 - healthEst) / max |(-rate * |socEst - SOC_target|)| (1 / 10 ^ 8) ≤ 0 :=
    div_nonpos_of_nonpos_of_nonneg hnum (le_of_lt hrate)
  simp only [rulStep, SOC_target]
  exact max_eq_right this

/-- C10: when the estimated Health is at or above the 0.75 floor, RUL is
exactly 0; a strictly positive RUL forces the health estimate below the
floor. -/
theorem C10_rul_zero_above_floor (socEst healthEst rate : ℚ) :
    (75 / 100 ≤ healthEst → rulStep socEst healthEst rate = 0) ∧
    (0 < rulStep socEst healthEst rate → healthEst < 75 / 100) := by
  constructor
  · exact rulStep_eq_zero_of_floor_le socEst healthEst rate
  · intro hpos
    by_contra hge
    rw [not_lt] at hge
    rw [rulStep_eq_zero_of_floor_le socEst healthEst rate hge] at hpos
    exact lt_irrefl 0 hpos

/-- Concrete instances of `C10_rul_zero_above_floor`: a pristine health
estimate gives RUL 0, and a health estimate of 0.5 with a positive RUL
is indeed below the floor. -/
theorem C10_rul_zero_above_floor_witness :
    rulStep (8/10) 1 alpha_health = 0 ∧ (1/2 : ℚ) < 75 / 100 :=
  ⟨(C10_rul_zero_above_floor (8/10) 1 alpha_health).1 (by norm_num),
   (C10_rul_zero_above_floor (8/10) (1/2) alpha_health).2 (by
      norm_num [rulStep, SOC_target, alpha_health, abs_of_nonneg])⟩

/-! ## Grid-search controller (`main_simulation.py` lines 75-100)

```
load_candidates = np.linspace(0.2, 1.0, 20)
best_cost = 1e9
best_load = 1.0
for load in load_candidates:
    dSOC_pred = (sunlight - 5.0 * load) / (C_nominal * Health)
    SOC_pred = SOC + dSOC_pred * dt
    dH_pred = -alpha_health_fault * abs(SOC - SOC_target)
    Health_pred = Health + dH_pred * dt
    cost = 10 * (SOC_pred - SOC_target) ** 2 + 50 * (dH_pred ** 2) + 5 * (1 - load) ** 2
    if SOC_pred < SOC_min or Health_pred < Health_min:
        cost += 1e6
    if cost < best_cost:
        best_cost = cost
        best_load = load
load_factor = best_load
```
-/

/-- `np.linspace(0.2, 1.0, 20)`: the i-th candidate is
`0.2 + i * (1.0 - 0.2) / 19`. -/
def loadCandidates : List ℚ :=
  (List.range 20).map (fun i => 1 / 5 + (i : ℚ) * (4 / 95))

lemma loadCandidates_eq :
    loadCandidates = [19/95, 23/95, 27/95, 31/95, 35/95, 39/95, 43/95, 47/95, 51/95, 55/95,
      59/95, 63/95, 67/95, 71/95, 75/95, 79/95, 83/95, 87/95, 91/95, 1] := by
  simp [loadCandidates, List.range_succ]
  norm_num

/-- Cost of one candidate `load`, including the `1e6` constraint penalty. -/
def candCost (soc health sunlight rate load : ℚ) : ℚ :=
  let dSOC_pred := (sunlight - 5 * load) / (C_nominal * health)
  let SOC_pred := soc + dSOC_pred * dt
  let dH_pred := -rate * |soc - SOC_target|
  let Health_pred := health + dH_pred * dt
  let base := 10 * (SOC_pred - SOC_target) ^ 2 + 50 * dH_pred ^ 2 + 5 * (1 - load) ^ 2
  if SOC_pred < SOC_min ∨ Health_pred < Health_min then base + 10 ^ 6 else base

/-- The `for load in load_candidates` loop body, threading
`(best_cost, best_load)`. -/
def gsAux (cost : ℚ → ℚ) : List ℚ → ℚ × ℚ → ℚ × ℚ
  | [], acc => acc
  | load :: rest, acc =>
      gsAux cost rest (if cost load < acc.1 then (cost load, load) else acc)

/-- The controller: returns `best_load` after scanning all candidates,
starting from `best_cost = 1e9`, `best_load = 1.0`. -/
def gridSearch (soc health sunlight rate : ℚ) : ℚ :=
  (gsAux (candCost soc health sunlight rate) loadCandidates (10 ^ 9, 1)).2

/-- Exhaustive behaviour of the scan: either no candidate beats the
incoming `best_cost` and the accumulator is returned untouched, or the
result is the first candidate attaining the running strict minimum —
all candidates before it cost strictly more, all candidates after it
cost at least as much. -/
lemma gsAux_spec (cost : ℚ → ℚ) :
    ∀ (l : List ℚ) (bc bl : ℚ),
      (gsAux cost l (bc, bl) = (bc, bl) ∧ ∀ x ∈ l, bc ≤ cost x) ∨
      (∃ pre x suf, l = pre ++ x :: suf ∧
        gsAux cost l (bc, bl) = (cost x, x) ∧ cost x < bc ∧
        (∀ y ∈ pre, cost x < cost y) ∧ (∀ y ∈ suf, cost x ≤ cost y)) := by
  intro l
  induction l with
  | nil =>
      intro bc bl
      exact Or.inl ⟨rfl, by simp⟩
  | cons a rest ih =>
      intro bc bl
      by_cases hlt : cost a < bc
      · have hstep : gsAux cost (a :: rest) (bc, bl) = gsAux cost rest (cost a, a) := by
          simp [gsAux, hlt]
        rcases ih (cost a) a with ⟨heq, hall⟩ | ⟨pre, x, suf, hsplit, heq, hx, hpre, hsuf⟩
        · refine Or.inr ⟨[], a, rest, by simp, ?_, hlt, by simp, hall⟩
          rw [hstep, heq]
        · refine Or.inr ⟨a :: pre, x, suf, by simp [hsplit], ?_, lt_trans hx hlt, ?_, hsuf⟩
          · rw [hstep, heq]
          · intro y hy
            rcases List.mem_cons.mp hy with hya | hyp
            · exact hya ▸ hx
            · exact hpre y hyp
      · have hge : bc ≤ cost a := le_of_not_lt hlt
        have hstep : gsAux cost (a :: rest) (bc, bl) = gsAux cost rest (bc, bl) := by
          simp [gsAux, hlt]
        rcases ih bc bl with ⟨heq, hall⟩ | ⟨pre, x, suf, hsplit, heq, hx, hpre, hsuf⟩
        · refine Or.inl ⟨by rw [hstep, heq], ?_⟩
          intro y hy
          rcases List.mem_cons.mp hy with hya | hyr
          · exact hya ▸ hge
          · exact hall y hyr
        · refine Or.inr ⟨a :: pre, x, suf, by simp [hsplit], by rw [hstep, heq], hx, ?_, hsuf⟩
          intro y hy
          rcases List.mem_cons.mp hy with hya | hyp
          · exact hya ▸ lt_of_lt_of_le hx hge
          · exact hpre y hyp

/-- C4: whatever the input state, the chosen load factor is one of the 20
candidates of `np.linspace(0.2, 1.0, 20)` — the controller always returns
an action from the fixed discretization (initial `best_load = 1.0` is
itself the last candidate). -/
theorem C4_load_in_candidates (soc health sunlight rate : ℚ) :
    gridSearch soc health sunlight rate ∈ loadCandidates := by
  unfold gridSearch
  rcases gsAux_spec (candCost soc health sunlight rate) loadCandidates (10 ^ 9) 1 with
    ⟨heq, -⟩ | ⟨pre, x, suf, hsplit, heq, -, -, -⟩
  · rw [heq, loadCandidates_eq]
    norm_num
  · rw [heq]
    rw [hsplit]
    simp

/-- C3 as stated is false: with `soc = 0`, `health = 1`,
`sunlight = -10^9`, `rate = 0`, every candidate costs at least `1e9`, so
the loop never updates `best_load` and returns the initialization value
`1.0`, although the first candidate `0.2` costs strictly less than `1.0`
does — the returned load is not a cost minimizer. -/
theorem C3_counterexample :
    gridSearch 0 1 (-10 ^ 9) 0 = 1 ∧
    (1 / 5 : ℚ) ∈ loadCandidates ∧
    candCost 0 1 (-10 ^ 9) 0 (1 / 5) < candCost 0 1 (-10 ^ 9) 0 1 := by
  refine ⟨?_, ?_, ?_⟩
  · norm_num [gridSearch, gsAux, loadCandidates, List.range_succ, candCost, C_nominal, dt,
      SOC_target, SOC_min, Health_min]
  · rw [loadCandidates_eq]
    norm_num
  · norm_num [candCost, C_nominal, dt, SOC_target, SOC_min, Health_min]

/-- C3 (amended): whenever at least one candidate's cost is strictly
below the `1e9` initialization of `best_cost` — true in particular for
every state the simulation loop can reach — the controller returns the
first candidate in left-to-right scan order attaining the minimum cost:
every earlier candidate costs strictly more and every later candidate
costs at least as much. -/
theorem C3_first_minimizer (soc health sunlight rate : ℚ)
    (h : ∃ c ∈ loadCandidates, candCost soc health sunlight rate c < 10 ^ 9) :
    ∃ pre suf, loadCandidates = pre ++ gridSearch soc health sunlight rate :: suf ∧
      (∀ y ∈ pre,
        candCost soc health sunlight rate (gridSearch soc health sunlight rate) <
          candCost soc health sunlight rate y) ∧
      (∀ y ∈ suf,
        candCost soc health sunlight rate (gridSearch soc health sunlight rate) ≤
          candCost soc health sunlight rate y) := by
  rcases gsAux_spec (candCost soc health sunlight rate) loadCandidates (10 ^ 9) 1 with
    ⟨-, hall⟩ | ⟨pre, x, suf, hsplit, heq, -, hpre, hsuf⟩
  · rcases h with ⟨c, hc, hclt⟩
    exact absurd (hall c hc) (not_le.mpr hclt)
  · have hres : gridSearch soc health sunlight rate = x := by
      unfold gridSearch
      rw [heq]
    refine ⟨pre, suf, ?_, ?_, ?_⟩
    · rw [hres]; exact hsplit
    · rw [hres]
      have : candCost soc health sunlight rate x = (gsAux (candCost soc health sunlight rate) loadCandidates (10 ^ 9, 1)).1 := by
        rw [heq]
      intro y hy
      exact hpre y hy
    · rw [hres]
      intro y hy
      exact hsuf y hy

/-- Concrete instance of `C3_first_minimizer` on a state the loop
reaches at its first step (`SOC = 0.8`, `Health = 1`, `sunlight = 80`,
nominal degradation rate). -/
theorem C3_first_minimizer_witness :
    ∃ pre suf, loadCandidates = pre ++ gridSearch (8/10) 1 80 alpha_health :: suf ∧
      (∀ y ∈ pre,
        candCost (8/10) 1 80 alpha_health (gridSearch (8/10) 1 80 alpha_health) <
          candCost (8/10) 1 80 alpha_health y) ∧
      (∀ y ∈ suf,
        candCost (8/10) 1 80 alpha_health (gridSearch (8/10) 1 80 alpha_health) ≤
          candCost (8/10) 1 80 alpha_health y) :=
  C3_first_minimizer (8/10) 1 80 alpha_health
    ⟨1, by rw [loadCandidates_eq]; norm_num,
      by norm_num [candCost, C_nominal, dt, SOC_target, SOC_min, Health_min, alpha_health,
        abs_of_nonneg]⟩

/-! ## Kalman filter (`main_simulation.py` lines 39-43 and 123-141)

2-vectors and 2×2 matrices over ℚ, with exactly the operations the
numpy code performs. -/

@[ext] structure Vec2 where
  v0 : ℚ
  v1 : ℚ

@[ext] structure Mat2 where
  m00 : ℚ
  m01 : ℚ
  m10 : ℚ
  m11 : ℚ

def Vec2.add (u v : Vec2) : Vec2 := ⟨u.v0 + v.v0, u.v1 + v.v1⟩
def Vec2.sub (u v : Vec2) : Vec2 := ⟨u.v0 - v.v0, u.v1 - v.v1⟩
def Vec2.dot (u v : Vec2) : ℚ := u.v0 * v.v0 + u.v1 * v.v1

def Mat2.add (M N : Mat2) : Mat2 :=
  ⟨M.m00 + N.m00, M.m01 + N.m01, M.m10 + N.m10, M.m11 + N.m11⟩
def Mat2.sub (M N : Mat2) : Mat2 :=
  ⟨M.m00 - N.m00, M.m01 - N.m01, M.m10 - N.m10, M.m11 - N.m11⟩
def Mat2.mul (M N : Mat2) : Mat2 :=
  ⟨M.m00 * N.m00 + M.m01 * N.m10, M.m00 * N.m01 + M.m01 * N.m11,
   M.m10 * N.m00 + M.m11 * N.m10, M.m10 * N.m01 + M.m11 * N.m11⟩
def Mat2.mulVec (M : Mat2) (v : Vec2) : Vec2 :=
  ⟨M.m00 * v.v0 + M.m01 * v.v1, M.m10 * v.v0 + M.m11 * v.v1⟩
def Mat2.transpose (M : Mat2) : Mat2 := ⟨M.m00, M.m10, M.m01, M.m11⟩

/-- `np.eye(2)`. -/
def Mat2.eye : Mat2 := ⟨1, 0, 0, 1⟩

/-- `np.linalg.inv` on a 2×2 matrix (adjugate over determinant). -/
def Mat2.inv (M : Mat2) : Mat2 :=
  let det := M.m00 * M.m11 - M.m01 * M.m10
  ⟨M.m11 / det, -M.m01 / det, -M.m10 / det, M.m00 / det⟩

/-- Initial covariance `P = np.eye(2) * 1e-4` (line 40). -/
def P0 : Mat2 := ⟨1 / 10 ^ 4, 0, 0, 1 / 10 ^ 4⟩

/-- `Q_base = np.diag([1e-6, 1e-8])` (line 42). -/
def Q_base : Mat2 := ⟨1 / 10 ^ 6, 0, 0, 1 / 10 ^ 8⟩

/-- `R = np.diag([1e-4, 1e-6])` (line 43). -/
def Rmat : Mat2 := ⟨1 / 10 ^ 4, 0, 0, 1 / 10 ^ 6⟩

/-- One filter step exactly as the code performs it (lines 123-136):
`F = eye; X_pred = X_est; P_pred = F @ P @ F.T + Q`; then
`H = eye; y = z - H @ X_pred; S = H @ P_pred @ H.T + R;
K = P_pred @ H.T @ inv(S); X_est = X_pred + K @ y;
P = (eye - K @ H) @ P_pred`.  Returns `(X_est', P', y, S)`. -/
def ekfStep (xe : Vec2) (P : Mat2) (z : Vec2) (Q R : Mat2) :
    Vec2 × Mat2 × Vec2 × Mat2 :=
  let F := Mat2.eye
  let xPred := xe
  let pPred := ((F.mul P).mul F.transpose).add Q
  let H := Mat2.eye
  let y := z.sub (H.mulVec xPred)
  let S := ((H.mul pPred).mul H.transpose).add R
  let K := (pPred.mul H.transpose).mul S.inv
  let xNew := xPred.add (K.mulVec y)
  let pNew := (Mat2.eye.sub (K.mul H)).mul pPred
  (xNew, pNew, y, S)

/-- The estimator step as the spec words it (§4.4): predict
`x̂⁻ = x̂`, `P⁻ = P + Q`; update `y = z − x̂⁻`, `S = P⁻ + R`,
`K = P⁻ · S⁻¹`, `x̂ = x̂⁻ + K·y`, `P = (I − K)·P⁻`.  Kept separate from
`ekfStep` so the code can be proved to refine the spec's formulas. -/
def ekfStepSpec (xe : Vec2) (P : Mat2) (z : Vec2) (Q R : Mat2) :
    Vec2 × Mat2 × Vec2 × Mat2 :=
  let xPred := xe
  let pPred := P.add Q
  let y := z.sub xPred
  let S := pPred.add R
  let K := pPred.mul S.inv
  (xPred.add (K.mulVec y), (Mat2.eye.sub K).mul pPred, y, S)

/-- `NIS = y.T @ inv(S) @ y` (line 141). -/
def nis (y : Vec2) (S : Mat2) : ℚ := y.dot (S.inv.mulVec y)

/-- C2: with `F = H = I`, the filter step the code computes coincides,
for every measurement, prior belief and noise matrices, with the spec's
formulas `x̂⁻ = x̂`, `P⁻ = P + Q`, `y = z − x̂⁻`, `S = P⁻ + R`,
`K = P⁻·S⁻¹`, `x̂ = x̂⁻ + K·y`, `P = (I − K)·P⁻`. -/
theorem C2_ekf_step_refines_spec (xe : Vec2) (P : Mat2) (z : Vec2) (Q R : Mat2) :
    ekfStep xe P z Q R = ekfStepSpec xe P z Q R := by
  simp [ekfStep, ekfStepSpec, Mat2.mul, Mat2.add, Mat2.sub, Mat2.transpose, Mat2.mulVec,
    Mat2.eye, Mat2.inv, Vec2.add, Vec2.sub]

/-- C5: a measurement that equals the predicted estimate (which is the
prior estimate, since prediction is the identity) yields a zero
innovation, a zero NIS, and leaves the estimate unchanged by the
update. -/
theorem C5_zero_innovation (xe : Vec2) (P : Mat2) (z : Vec2) (Q R : Mat2)
    (h : z = xe) :
    (ekfStep xe P z Q R).2.2.1 = ⟨0, 0⟩ ∧
    nis (ekfStep xe P z Q R).2.2.1 (ekfStep xe P z Q R).2.2.2 = 0 ∧
    (ekfStep xe P z Q R).1 = xe := by
  subst h
  refine ⟨?_, ?_, ?_⟩ <;>
    simp [ekfStep, nis, Mat2.mul, Mat2.add, Mat2.sub, Mat2.transpose, Mat2.mulVec,
      Mat2.eye, Mat2.inv, Vec2.add, Vec2.sub, Vec2.dot]

/-- Concrete instance of `C5_zero_innovation` at the code's own initial
belief and noise matrices. -/
theorem C5_zero_innovation_witness :
    (ekfStep ⟨8/10, 1⟩ P0 ⟨8/10, 1⟩ Q_base Rmat).2.2.1 = (⟨0, 0⟩ : Vec2) ∧
    nis (ekfStep ⟨8/10, 1⟩ P0 ⟨8/10, 1⟩ Q_base Rmat).2.2.1
      (ekfStep ⟨8/10, 1⟩ P0 ⟨8/10, 1⟩ Q_base Rmat).2.2.2 = 0 ∧
    (ekfStep ⟨8/10, 1⟩ P0 ⟨8/10, 1⟩ Q_base Rmat).1 = ⟨8/10, 1⟩ :=
  C5_zero_innovation ⟨8/10, 1⟩ P0 ⟨8/10, 1⟩ Q_base Rmat rfl

/-! ## RK4 integrator (`rk4_solver.py` lines 4-17)

The 8-component state is a function `Fin 8 → ℚ`; `U` and `D` are the
4 controls and 3 disturbances of `system_dynamics`. After the classical
combination, component 0 (SOC) and component 7 (battery health) are
clipped to `[0, 1]` in place. -/

def rk4_step (f : ℚ → (Fin 8 → ℚ) → (Fin 4 → ℚ) → (Fin 3 → ℚ) → (Fin 8 → ℚ))
    (t : ℚ) (X : Fin 8 → ℚ) (U : Fin 4 → ℚ) (D : Fin 3 → ℚ) (h : ℚ) :
    Fin 8 → ℚ :=
  let k1 := f t X U D
  let k2 := f (t + h / 2) (fun j => X j + h / 2 * k1 j) U D
  let k3 := f (t + h / 2) (fun j => X j + h / 2 * k2 j) U D
  let k4 := f (t + h) (fun j => X j + h * k3 j) U D
  let Xn := fun j => X j + h / 6 * (k1 j + 2 * k2 j + 2 * k3 j + k4 j)
  Function.update (Function.update Xn 0 (clip (Xn 0) 0 1)) 7 (clip (Xn 7) 0 1)

/-- C8: `rk4_step` returns the classical RK4 combination
`X + (h/6)(k1 + 2k2 + 2k3 + k4)` in every component, except that the
SOC component (index 0) and the battery-health component (index 7) are
clamped to `[0, 1]` after integration. -/
theorem C8_rk4_step_eq
    (f : ℚ → (Fin 8 → ℚ) → (Fin 4 → ℚ) → (Fin 3 → ℚ) → (Fin 8 → ℚ))
    (t : ℚ) (X : Fin 8 → ℚ) (U : Fin 4 → ℚ) (D : Fin 3 → ℚ) (h : ℚ) (i : Fin 8) :
    rk4_step f t X U D h i =
      (let k1 := f t X U D
       let k2 := f (t + h / 2) (fun j => X j + h / 2 * k1 j) U D
       let k3 := f (t + h / 2) (fun j => X j + h / 2 * k2 j) U D
       let k4 := f (t + h) (fun j => X j + h * k3 j) U D
       let Xn := fun j => X j + h / 6 * (k1 j + 2 * k2 j + 2 * k3 j + k4 j)
       if i = 0 ∨ i = 7 then clip (Xn i) 0 1 else Xn i) := by
  simp only [rk4_step, Function.update_apply]
  by_cases h7 : i = 7
  · subst h7
    simp
  · by_cases h0 : i = 0
    · subst h0
      have hne : ((0 : Fin 8) = 7) = False := by decide
      simp [hne]
    · simp [h0, h7]

/-! ## Configuration validity (`main_simulation.py` lines 19-43 and 75)

The program has no external configuration input: every run starts the
loop with the module-level constants below, so the loop can never begin
under a configuration violating the validity conditions. -/

structure Config where
  qSoc : ℚ
  qHealth : ℚ
  rSoc : ℚ
  rHealth : ℚ
  cNominal : ℚ
  candidates : List ℚ

/-- The single, hard-coded configuration the simulation loop runs with:
diagonal entries of `Q_base` and `R`, the nominal capacity and the
candidate list. -/
def theConfig : Config :=
  ⟨1 / 10 ^ 6, 1 / 10 ^ 8, 1 / 10 ^ 4, 1 / 10 ^ 6, C_nominal, loadCandidates⟩

/-- A configuration is invalid when a noise variance is negative, the
candidate set is empty, or the nominal capacity is non-positive. -/
def invalidConfig (c : Config) : Prop :=
  c.qSoc < 0 ∨ c.qHealth < 0 ∨ c.rSoc < 0 ∨ c.rHealth < 0 ∨
    c.candidates = [] ∨ c.cNominal ≤ 0

/-- The simulation loop begins with a configuration only if it is the
hard-coded one. -/
def beginsLoopWith (c : Config) : Prop := c = theConfig

/-- C7: no invalid configuration — negative noise variance, empty
candidate set, or non-positive capacity — is ever the configuration the
simulation loop begins with: the hard-coded constants satisfy all three
validity conditions. -/
theorem C7_invalid_config_never_runs (c : Config) (h : invalidConfig c) :
    ¬ beginsLoopWith c := by
  intro hrun
  rw [beginsLoopWith] at hrun
  subst hrun
  rcases h with h | h | h | h | h | h
  · revert h; norm_num [theConfig]
  · revert h; norm_num [theConfig]
  · revert h; norm_num [theConfig]
  · revert h; norm_num [theConfig]
  · revert h; rw [theConfig, loadCandidates_eq]; simp
  · revert h; norm_num [theConfig, C_nominal]

/-- Concrete instance of `C7_invalid_config_never_runs`: the
configuration with capacity `-1` (invalid) is not the one the loop
starts with. -/
theorem C7_invalid_config_never_runs_witness :
    ¬ beginsLoopWith ⟨1 / 10 ^ 6, 1 / 10 ^ 8, 1 / 10 ^ 4, 1 / 10 ^ 6, -1, loadCandidates⟩ :=
  C7_invalid_config_never_runs _ (by norm_num [invalidConfig])

end DigitalTwin
